import Mathlib

/-!
Shallow embedding of `tensordict/nn/distributions/continuous.py` and proofs
about its components: `NormalParamWrapper`, `NormalParamExtractor`,
`AddStateIndependentNormalScale` and `Delta`.

Tensors are modelled as a shape (list of dimension sizes) together with a
flat row-major data list over an arbitrary scalar type; the float scalars of
the original code are idealized as rationals, and the numeric semantics of
the positive-mapping functions (softplus, exp, ...) is abstracted as an
arbitrary interpretation function, since only the registry lookup and the
clamping matter for the properties at stake.
-/

deriving instance DecidableEq for Except

namespace Tdc

/-- An N-dimensional tensor: a shape and flat row-major data. -/
structure Tensor (α : Type) where
  shape : List Nat
  data : List α
  deriving DecidableEq, Repr

/-- Well-formedness: the flat data has exactly one entry per multi-index. -/
def Tensor.WF {α : Type} (t : Tensor α) : Prop :=
  t.data.length = t.shape.prod

instance {α : Type} (t : Tensor α) : Decidable t.WF :=
  inferInstanceAs (Decidable (t.data.length = t.shape.prod))

/-- Row-major multi-index of the flat index `j` in shape `s`. -/
def unflattenIdx : List Nat → Nat → List Nat
  | [], _ => []
  | _ :: rest, j => (j / rest.prod) :: unflattenIdx rest (j % rest.prod)

/-- Row-major flat index of the multi-index `idx` in shape `s`. -/
def flattenIdx : List Nat → List Nat → Nat
  | _ :: rest, i :: idx => i * rest.prod + flattenIdx rest idx
  | _, _ => 0

theorem flattenIdx_unflattenIdx (s : List Nat) (j : Nat) (h : j < s.prod) :
    flattenIdx s (unflattenIdx s j) = j := by
  induction s generalizing j with
  | nil =>
    simp only [List.prod_nil, Nat.lt_one_iff] at h
    simp [flattenIdx, unflattenIdx, h]
  | cons n rest ih =>
    simp only [unflattenIdx, flattenIdx]
    rcases Nat.eq_zero_or_pos rest.prod with hp | hp
    · exfalso
      simp [List.prod_cons, hp] at h
    · rw [ih _ (Nat.mod_lt _ hp)]
      rw [Nat.mul_comm]
      exact Nat.div_add_mod j rest.prod

theorem unflattenIdx_append_drop (s t : List Nat) (j : Nat)
    (h : j < (s ++ t).prod) :
    (unflattenIdx (s ++ t) j).drop s.length = unflattenIdx t (j % t.prod) := by
  induction s generalizing j with
  | nil =>
    simp only [List.nil_append] at h
    simp [Nat.mod_eq_of_lt h]
  | cons a s ih =>
    simp only [List.cons_append, unflattenIdx, List.length_cons, List.drop_succ_cons,
      List.append_eq]
    rcases Nat.eq_zero_or_pos (s ++ t).prod with hp | hp
    · exfalso
      simp [List.prod_cons, hp] at h
    · rw [ih _ (Nat.mod_lt _ hp)]
      congr 1
      have hdvd : t.prod ∣ (s ++ t).prod := by
        simp [List.prod_append]
      exact Nat.mod_mod_of_dvd j hdvd

/-- Collapse multi-index entries along singleton dimensions of the source
shape (broadcasting sends every index of a stretched dimension to 0). -/
def collapseOnes : List Nat → List Nat → List Nat
  | n :: src, i :: idx => (if n = 1 then 0 else i) :: collapseOnes src idx
  | _, _ => []

theorem collapseOnes_unflattenIdx (s : List Nat) (j : Nat) (h : j < s.prod) :
    collapseOnes s (unflattenIdx s j) = unflattenIdx s j := by
  induction s generalizing j with
  | nil => simp [unflattenIdx, collapseOnes]
  | cons n rest ih =>
    simp only [unflattenIdx, collapseOnes]
    rcases Nat.eq_zero_or_pos rest.prod with hp | hp
    · exfalso
      simp [List.prod_cons, hp] at h
    · rw [ih _ (Nat.mod_lt _ hp)]
      rcases eq_or_ne n 1 with h1 | h1
      · subst h1
        simp only [List.prod_cons, one_mul] at h
        simp [Nat.div_eq_of_lt h]
      · simp [h1]

/-- Elementwise unary operation (e.g. `abs`, a scale mapping). -/
def Tensor.map {α β : Type} (f : α → β) (t : Tensor α) : Tensor β :=
  ⟨t.shape, t.data.map f⟩

/-- Elementwise binary operation on same-shaped tensors (the only way the
source combines two tensors after its explicit `expand_as` calls). -/
def Tensor.zipApply {α β γ : Type} [Inhabited α] [Inhabited β]
    (f : α → β → γ) (a : Tensor α) (b : Tensor β) : Tensor γ :=
  ⟨a.shape, (List.range a.shape.prod).map
    (fun j => f (a.data.getD j default) (b.data.getD j default))⟩

/-- Embedding of `Tensor.clamp_min(lb)`: elementwise `max` with `lb`. -/
def Tensor.clampMin {α : Type} [LinearOrder α] (lb : α) (t : Tensor α) : Tensor α :=
  Tensor.map (fun v => max v lb) t

/-- Embedding of `torch.full(shape, v)`. -/
def Tensor.full {α : Type} (shape : List Nat) (v : α) : Tensor α :=
  ⟨shape, List.replicate shape.prod v⟩

/-- Whether `src` can be expanded (torch broadcasting) to shape `tgt`:
`tgt` has at least as many dimensions, and each trailing-aligned source
dimension equals the target one or is 1. -/
def Tensor.expandCompat (src tgt : List Nat) : Bool :=
  decide (src.length ≤ tgt.length) &&
    (src.zip (tgt.drop (tgt.length - src.length))).all
      (fun p => p.1 == p.2 || p.1 == 1)

/-- Embedding of `Tensor.expand(tgt)` / `expand_as`: `none` models the
`RuntimeError` torch raises on incompatible shapes. Element at target flat
index `j`: drop the new leading dimensions of the multi-index, send indices
along stretched (size-1) source dimensions to 0, and read the source there. -/
def Tensor.expand {α : Type} [Inhabited α] (t : Tensor α) (tgt : List Nat) :
    Option (Tensor α) :=
  if Tensor.expandCompat t.shape tgt then
    some ⟨tgt, (List.range tgt.prod).map (fun j =>
      t.data.getD
        (flattenIdx t.shape
          (collapseOnes t.shape
            ((unflattenIdx tgt j).drop (tgt.length - t.shape.length))))
        default)⟩
  else none

/-- Errors raised by the embedded code (each constructor mirrors one
`raise`/error site of the source or of the torch operations it calls). -/
inductive TdErr : Type
  /-- `NotImplementedError` of the mapping registry for an unknown name. -/
  | unknownMapping (key : String)
  /-- `RuntimeError` of `AddStateIndependentNormalScale.forward`, carrying
  the reported slice `loc.shape[-len(scale_shape):]` and the shape of the
  `state_independent_scale` tensor, in this order. -/
  | shapeMismatch (locTrailing scaleShape : List Nat)
  /-- `RuntimeError` of `Tensor.expand` on incompatible shapes. -/
  | expandError (srcShape tgtShape : List Nat)
  /-- `IndexError` of `chunk(2, -1)` on a 0-dimensional tensor. -/
  | chunkDimError
  /-- `ValueError` of tuple unpacking (`loc, scale = ...` receiving fewer
  than two values, or `tensor, *others = tensors` receiving none). -/
  | unpackError
  /-- `RuntimeError` of the deprecated `NormalParamWrapper` constructor. -/
  | deprecated (msg : String)
  deriving DecidableEq, Repr

/-- The tags of the positive-mapping registry of §4.1 of the spec. -/
inductive MappingKind : Type
  | softplus
  | exp
  | relu
  | biased_softplus (key : String)
  | none_map
  deriving DecidableEq, Repr

/-- Modelled from the spec: the registry `tensordict.nn.utils.mappings` is
imported by the source but its module is not part of src/. Per §4.1 it
recognizes the names "softplus", "exp", "relu", "none" and the family
"biased_softplus_<bias>[_<min>]" (matched by its "biased_softplus" stem),
and an unrecognized name fails with an `UnknownMapping` error naming the
offending string. The numeric content of the returned function is kept
abstract (interpreted by a `MappingKind → ℚ → ℚ` argument at use sites). -/
def mappings (key : String) : Except TdErr MappingKind :=
  if key = "softplus" then .ok .softplus
  else if key = "exp" then .ok .exp
  else if key = "relu" then .ok .relu
  else if key = "none" then .ok .none_map
  else if String.isPrefixOf "biased_softplus" key then .ok (.biased_softplus key)
  else .error (.unknownMapping key)

/-- Python slice `l[-k:]`: for `k = 0` this is `l[0:]`, the whole list
(`-0 == 0`); for `k > 0` it is the last `k` elements (all of `l` if
`k > len(l)`). -/
def pySliceNegTrail (l : List Nat) (k : Nat) : List Nat :=
  if k = 0 then l else l.drop (l.length - k)

/-- Embedding of `tensor.chunk(2, -1)` followed by the two-name unpacking
`loc, scale = ...` of the source. torch semantics: a 0-dimensional tensor
is rejected; otherwise, with `n` the last dimension, the split size is
`c = ceil(n / 2)`; for `n = 1` a single chunk is returned and the unpacking
fails; for `n = 0` two empty chunks are returned; otherwise two chunks of
sizes `c` and `n - c`. -/
def Tensor.chunk2Last {α : Type} [Inhabited α] (t : Tensor α) :
    Except TdErr (Tensor α × Tensor α) :=
  if t.shape.isEmpty then .error .chunkDimError
  else
    let n := t.shape.getLastD 0
    if n = 1 then .error .unpackError
    else
      let sInit := t.shape.dropLast
      let p := sInit.prod
      let c := (n + 1) / 2
      let r := n - c
      .ok (⟨sInit ++ [c], (List.range (p * c)).map
              (fun j => t.data.getD ((j / c) * n + j % c) default)⟩,
           ⟨sInit ++ [r], (List.range (p * r)).map
              (fun j => t.data.getD ((j / r) * n + c + j % r) default)⟩)

/-- Embedding of `Tensor.all(i)` for a boolean tensor and a (possibly
negative) dimension, with `keepdim=False`: negative dimensions are wrapped
by the number of dimensions, out-of-range ones raise (`none`); a
0-dimensional tensor accepts dims -1 and 0 and is returned unchanged. -/
def Tensor.allDim (t : Tensor Bool) (i : Int) : Option (Tensor Bool) :=
  let nd := t.shape.length
  if nd = 0 then
    if i = -1 || i = 0 then some t else none
  else
    let d : Int := if i < 0 then i + nd else i
    if 0 ≤ d ∧ d < nd then
      let dn := d.toNat
      let m := t.shape.getD dn 0
      let inner := (t.shape.drop (dn + 1)).prod
      let outer := (t.shape.take dn).prod
      some ⟨t.shape.eraseIdx dn, (List.range (outer * inner)).map (fun j =>
        (List.range m).all (fun v =>
          t.data.getD ((j / inner) * (m * inner) + v * inner + j % inner) false))⟩
    else none

/-- Scalar values of a float tensor that may hold infinities (the output
dtype of `Delta.log_prob`). -/
inductive FVal : Type
  | fin (q : ℚ)
  | inf
  | negInf
  deriving DecidableEq, Repr

instance : Inhabited FVal := ⟨FVal.fin 0⟩

/-- Embedding of `torch.zeros_like(mask, dtype=float)`. -/
def Tensor.zerosLike (t : Tensor Bool) : Tensor FVal :=
  ⟨t.shape, t.data.map (fun _ => FVal.fin 0)⟩

/-- Embedding of `out.masked_fill_(mask, v)` for a same-shaped mask. -/
def Tensor.maskedFill {α : Type} [Inhabited α]
    (t : Tensor α) (mask : Tensor Bool) (v : α) : Tensor α :=
  ⟨t.shape, (List.range t.shape.prod).map (fun j =>
    if mask.data.getD j false then v else t.data.getD j default)⟩

/-- Embedding of `~mask`. -/
def Tensor.notT (t : Tensor Bool) : Tensor Bool :=
  Tensor.map (fun b => !b) t

/-- The deprecated wrapper class. Its constructor raises before any state
is set, so no instance exists: an empty type. -/
inductive NormalParamWrapper : Type

/-- The exact message of the `RuntimeError` raised by
`NormalParamWrapper.__init__`. -/
def deprecationMsg : String :=
  "NormalParamWrapper has been deprecated in favor of `tensordict.nn.NormalParamExtractor`. Use this class instead."

/-- Embedding of `NormalParamWrapper.__init__`: raises unconditionally,
whatever the arguments. -/
def NormalParamWrapper.init {Op : Type} (operator : Op)
    (scale_mapping : String) (scale_lb : ℚ) :
    Except TdErr NormalParamWrapper :=
  .error (.deprecated deprecationMsg)

/-- State of a constructed `NormalParamExtractor`: the resolved mapping
(`self.scale_mapping = mappings(scale_mapping)`) and the lower bound. -/
structure NormalParamExtractor : Type where
  scale_mapping : MappingKind
  scale_lb : ℚ
  deriving DecidableEq, Repr

/-- Embedding of `NormalParamExtractor.__init__`: resolves the mapping name
in the registry at construction time (and therefore fails there on an
unknown name). -/
def NormalParamExtractor.init (scale_mapping : String) (scale_lb : ℚ) :
    Except TdErr NormalParamExtractor :=
  (mappings scale_mapping).map (fun k => ⟨k, scale_lb⟩)

/-- Embedding of `NormalParamExtractor.forward(*tensors)`:
`tensor, *others = tensors; loc, scale = tensor.chunk(2, -1);
scale = self.scale_mapping(scale).clamp_min(self.scale_lb);
return (loc, scale, *others)`. `interp` gives the numeric semantics of the
resolved mapping function. -/
def NormalParamExtractor.forward (interp : MappingKind → ℚ → ℚ)
    (m : NormalParamExtractor) (tensors : List (Tensor ℚ)) :
    Except TdErr (Tensor ℚ × Tensor ℚ × List (Tensor ℚ)) :=
  match tensors with
  | [] => .error .unpackError
  | t :: others =>
    match t.chunk2Last with
    | .error e => .error e
    | .ok (loc, scale) =>
      .ok (loc, Tensor.clampMin m.scale_lb (Tensor.map (interp m.scale_mapping) scale),
           others)

/-- State of a constructed `AddStateIndependentNormalScale` module. Note
that `scale_mapping` is stored as the raw string: the registry is only
consulted inside `forward`. -/
structure AddStateIndependentNormalScale : Type where
  scale_shape : List Nat
  scale_mapping : String
  scale_lb : ℚ
  state_independent_scale : Tensor ℚ
  deriving DecidableEq, Repr

/-- Embedding of `AddStateIndependentNormalScale.__init__`: `None` becomes
the empty shape, the scale tensor is filled with `init_value` (parameter or
buffer makes no difference to the stored values), and the mapping name is
stored unvalidated. -/
def AddStateIndependentNormalScale.init (scale_shape : Option (List Nat))
    (scale_mapping : String) (scale_lb : ℚ) (init_value : ℚ) :
    AddStateIndependentNormalScale :=
  let ss := scale_shape.getD []
  ⟨ss, scale_mapping, scale_lb, Tensor.full ss init_value⟩

/-- Embedding of `AddStateIndependentNormalScale.forward(loc, *others)`:
raise if `self.scale_shape != loc.shape[-len(self.scale_shape):]`
(reporting that slice and the scale tensor's shape), else expand the scale
tensor to `loc`'s shape, look the mapping name up in the registry, apply it
and clamp. -/
def AddStateIndependentNormalScale.forward (interp : MappingKind → ℚ → ℚ)
    (m : AddStateIndependentNormalScale) (loc : Tensor ℚ)
    (others : List (Tensor ℚ)) :
    Except TdErr (Tensor ℚ × Tensor ℚ × List (Tensor ℚ)) :=
  if m.scale_shape ≠ pySliceNegTrail loc.shape m.scale_shape.length then
    .error (.shapeMismatch (pySliceNegTrail loc.shape m.scale_shape.length)
      m.state_independent_scale.shape)
  else
    match m.state_independent_scale.expand loc.shape with
    | none => .error (.expandError m.state_independent_scale.shape loc.shape)
    | some scale0 =>
      match mappings m.scale_mapping with
      | .error e => .error e
      | .ok kind =>
        .ok (loc, Tensor.clampMin m.scale_lb (Tensor.map (interp kind) scale0),
             others)

/-- State of a `Delta` distribution. -/
structure Delta : Type where
  param : Tensor ℚ
  atol : ℚ
  rtol : ℚ
  batch_shape : List Nat
  event_shape : List Nat
  deriving DecidableEq, Repr

/-- Embedding of `Delta.__init__`: `None` shapes become empty; when both
the batch and the event shape are empty they are derived from the
parameter as `param.shape[:-1]` and `param.shape[-1:]`. -/
def Delta.init (param : Tensor ℚ) (atol rtol : ℚ)
    (batch_shape event_shape : Option (List Nat)) : Delta :=
  let b := batch_shape.getD []
  let e := event_shape.getD []
  if b.isEmpty && e.isEmpty then
    ⟨param, atol, rtol,
     param.shape.take (param.shape.length - 1),
     param.shape.drop (param.shape.length - 1)⟩
  else
    ⟨param, atol, rtol, b, e⟩

/-- Embedding of `Delta.update`: replace the parameter, touch nothing else. -/
def Delta.update (d : Delta) (param : Tensor ℚ) : Delta :=
  { d with param := param }

/-- Embedding of `Delta._is_equal`: broadcast the parameter to `value`'s
shape, compare `abs(value - param) < atol + rtol * abs(param)` elementwise,
then run `for i in range(-1, -len(event_shape) - 1, -1): is_equal =
is_equal.all(i)`. -/
def Delta.is_equal (d : Delta) (value : Tensor ℚ) : Option (Tensor Bool) := do
  let param ← d.param.expand value.shape
  let base := Tensor.zipApply
    (fun v p => decide (|v - p| < d.atol + d.rtol * |p|)) value param
  let dims := (List.range d.event_shape.length).map (fun k => -((k : Int) + 1))
  dims.foldlM Tensor.allDim base

/-- Embedding of `Delta.log_prob`: zeros like the equality mask, fill `+∞`
where the mask holds and `-∞` where it does not. -/
def Delta.log_prob (d : Delta) (value : Tensor ℚ) : Option (Tensor FVal) :=
  (d.is_equal value).map (fun eq =>
    Tensor.maskedFill (Tensor.maskedFill (Tensor.zerosLike eq) eq FVal.inf)
      (Tensor.notT eq) FVal.negInf)

/-- Embedding of `Delta.sample`: expand the parameter to
`(*sample_shape, *param.shape)` (`None` meaning the empty sample shape). -/
def Delta.sample (d : Delta) (sample_shape : Option (List Nat)) :
    Option (Tensor ℚ) :=
  d.param.expand (sample_shape.getD [] ++ d.param.shape)

/-- Embedding of `Delta.rsample`: identical to `sample` up to gradient
tracking, which the embedding does not model. -/
def Delta.rsample (d : Delta) (sample_shape : Option (List Nat)) :
    Option (Tensor ℚ) :=
  d.param.expand (sample_shape.getD [] ++ d.param.shape)

/-- Embedding of the `Delta.mode` property. -/
def Delta.mode (d : Delta) : Tensor ℚ := d.param

/-- Embedding of the `Delta.mean` property. -/
def Delta.mean (d : Delta) : Tensor ℚ := d.param

/-- Embedding of the `Delta.deterministic_sample` property. -/
def Delta.deterministic_sample (d : Delta) : Tensor ℚ := d.param

theorem getD_map_range {α : Type} (m : Nat) (g : Nat → α) (j : Nat) (d : α)
    (h : j < m) : ((List.range m).map g).getD j d = g j := by
  simp [List.getD_eq_getElem?_getD, List.getElem?_map, List.getElem?_range h]

theorem getD_map_of_lt {α β : Type} (f : α → β) (l : List α) (j : Nat)
    (d : α) (d' : β) (h : j < l.length) :
    (l.map f).getD j d' = f (l.getD j d) := by
  simp [List.getD_eq_getElem?_getD, List.getElem?_map, List.getElem?_eq_getElem h]

theorem map_range_getD_self {α : Type} (l : List α) (d : α) :
    (List.range l.length).map (fun j => l.getD j d) = l := by
  apply List.ext_getElem
  · simp
  · intro j h1 h2
    simp only [List.getElem_map, List.getElem_range]
    simp [List.getD_eq_getElem?_getD, List.getElem?_eq_getElem h2]

theorem zip_self_all_eq (l : List Nat) :
    (l.zip l).all (fun p => p.1 == p.2 || p.1 == 1) = true := by
  induction l with
  | nil => rfl
  | cons a l ih => simp_all [List.zip_cons_cons]

theorem Tensor.expandCompat_append {α : Type} (t : Tensor α) (s : List Nat) :
    Tensor.expandCompat t.shape (s ++ t.shape) = true := by
  unfold Tensor.expandCompat
  have hlen : t.shape.length ≤ (s ++ t.shape).length := by
    simp [List.length_append]
  have hdrop : (s ++ t.shape).drop ((s ++ t.shape).length - t.shape.length)
      = t.shape := by
    have : (s ++ t.shape).length - t.shape.length = s.length := by
      simp [List.length_append]
    rw [this, List.drop_left]
  simp [hlen, hdrop, zip_self_all_eq]

theorem Tensor.expand_append {α : Type} [Inhabited α] (t : Tensor α)
    (s : List Nat) :
    ∃ T : Tensor α, t.expand (s ++ t.shape) = some T ∧
      T.shape = s ++ t.shape ∧
      T.data.length = (s ++ t.shape).prod ∧
      ∀ j, j < (s ++ t.shape).prod →
        T.data.getD j default = t.data.getD (j % t.shape.prod) default := by
  unfold Tensor.expand
  rw [Tensor.expandCompat_append, if_pos rfl]
  refine ⟨_, rfl, rfl, by simp, ?_⟩
  intro j hj
  rw [getD_map_range _ _ _ _ hj]
  have hppos : 0 < t.shape.prod := by
    rcases Nat.eq_zero_or_pos t.shape.prod with h0 | h
    · exfalso
      rw [List.prod_append, h0, Nat.mul_zero] at hj
      exact Nat.not_lt_zero _ hj
    · exact h
  have hlen : (s ++ t.shape).length - t.shape.length = s.length := by
    simp [List.length_append]
  rw [hlen, unflattenIdx_append_drop s t.shape j hj,
    collapseOnes_unflattenIdx _ _ (Nat.mod_lt _ hppos),
    flattenIdx_unflattenIdx _ _ (Nat.mod_lt _ hppos)]

theorem Tensor.expand_self {α : Type} [Inhabited α] (t : Tensor α)
    (hwf : t.WF) : t.expand t.shape = some t := by
  obtain ⟨T, hE, hshape, hlen, hdata⟩ := Tensor.expand_append t []
  simp only [List.nil_append] at hE hshape hlen hdata
  rw [hE]
  congr 1
  have hdl : T.data = t.data := by
    apply List.ext_getElem (by rw [hlen, ← hwf])
    intro j h1 h2
    have hj : j < t.shape.prod := by rw [← hlen]; exact h1
    have h3 := hdata j hj
    rw [Nat.mod_eq_of_lt hj, List.getD_eq_getElem?_getD, List.getD_eq_getElem?_getD,
      List.getElem?_eq_getElem h1, List.getElem?_eq_getElem h2] at h3
    simpa using h3
  obtain ⟨Ts, Td⟩ := T
  obtain ⟨ts, td⟩ := t
  simp_all

theorem Tensor.chunk2Last_spec {α : Type} [Inhabited α] (t : Tensor α)
    (sInit : List Nat) (n : Nat) (hs : t.shape = sInit ++ [n]) (hn : n ≠ 1) :
    ∃ loc scale : Tensor α, t.chunk2Last = .ok (loc, scale) ∧
      loc.shape = sInit ++ [(n + 1) / 2] ∧
      scale.shape = sInit ++ [n - (n + 1) / 2] ∧
      loc.data.length = sInit.prod * ((n + 1) / 2) ∧
      scale.data.length = sInit.prod * (n - (n + 1) / 2) ∧
      (∀ j, j < sInit.prod * ((n + 1) / 2) →
        loc.data.getD j default
          = t.data.getD ((j / ((n + 1) / 2)) * n + j % ((n + 1) / 2)) default) ∧
      (∀ j, j < sInit.prod * (n - (n + 1) / 2) →
        scale.data.getD j default
          = t.data.getD
              ((j / (n - (n + 1) / 2)) * n + (n + 1) / 2 + j % (n - (n + 1) / 2))
              default) := by
  unfold Tensor.chunk2Last
  have hne : t.shape.isEmpty = false := by
    rw [hs]
    cases sInit <;> rfl
  have hlast : t.shape.getLastD 0 = n := by
    rw [hs]
    exact List.getLastD_concat _ _ _
  have hdl : t.shape.dropLast = sInit := by
    rw [hs]
    exact List.dropLast_concat
  rw [hne, hlast, hdl]
  simp only [Bool.false_eq_true, if_false, hn, if_false, Except.ok.injEq]
  refine ⟨_, _, rfl, rfl, rfl, by simp, by simp, ?_, ?_⟩
  · intro j hj
    rw [getD_map_range _ _ _ _ hj]
  · intro j hj
    rw [getD_map_range _ _ _ _ hj]

theorem ratDefault : (default : ℚ) = 0 := rfl

theorem pySlice_eq_append (L S : List Nat)
    (h : pySliceNegTrail L S.length = S) : ∃ U : List Nat, L = U ++ S := by
  unfold pySliceNegTrail at h
  by_cases h0 : S.length = 0
  · rw [if_pos h0] at h
    have hS : S = [] := List.length_eq_zero.mp h0
    exact ⟨L, by rw [hS, List.append_nil]⟩
  · rw [if_neg h0] at h
    refine ⟨L.take (L.length - S.length), ?_⟩
    nth_rewrite 1 [← List.take_append_drop (L.length - S.length) L]
    rw [h]

theorem clampMin_map_mem_le {α : Type} [LinearOrder α] (lb : α) (f : α → α)
    (t : Tensor α) :
    ∀ q ∈ (Tensor.clampMin lb (Tensor.map f t)).data, lb ≤ q := by
  intro q hq
  simp only [Tensor.clampMin, Tensor.map, List.map_map, List.mem_map] at hq
  obtain ⟨v, _, rfl⟩ := hq
  exact le_max_right _ _

/-- When the shape check of `AddStateIndependentNormalScale.forward`
passes, the branch taken is: expand the scale tensor to `loc`'s shape
(which always succeeds there), then dispatch on the registry lookup. -/
theorem AddStateIndependentNormalScale.forward_shape_ok
    (interp : MappingKind → ℚ → ℚ) (m : AddStateIndependentNormalScale)
    (loc : Tensor ℚ) (others : List (Tensor ℚ))
    (hstate : m.state_independent_scale.shape = m.scale_shape)
    (heq : pySliceNegTrail loc.shape m.scale_shape.length = m.scale_shape) :
    ∃ scale0 : Tensor ℚ,
      m.state_independent_scale.expand loc.shape = some scale0 ∧
      scale0.shape = loc.shape ∧
      m.forward interp loc others
        = match mappings m.scale_mapping with
          | .error e => .error e
          | .ok kind =>
            .ok (loc, Tensor.clampMin m.scale_lb (Tensor.map (interp kind) scale0),
                 others) := by
  obtain ⟨U, hU⟩ := pySlice_eq_append loc.shape m.scale_shape heq
  obtain ⟨T, hE, hsh, _, _⟩ := Tensor.expand_append m.state_independent_scale U
  rw [hstate] at hE hsh
  rw [← hU] at hE hsh
  refine ⟨T, hE, hsh, ?_⟩
  unfold AddStateIndependentNormalScale.forward
  rw [if_neg (by rw [heq]; simp), hE]

theorem getD_replicate {α : Type} (n : Nat) (a : α) (j : Nat) :
    (List.replicate n a).getD j a = a := by
  rw [List.getD_eq_getElem?_getD, List.getElem?_replicate]
  split <;> rfl

theorem clampMin_map_getD {α : Type} [LinearOrder α] (lb : α) (f : α → α)
    (t : Tensor α) (j : Nat) (d1 d2 : α) (h : j < t.data.length) :
    (Tensor.clampMin lb (Tensor.map f t)).data.getD j d1
      = max (f (t.data.getD j d2)) lb := by
  simp only [Tensor.clampMin, Tensor.map]
  rw [getD_map_of_lt _ _ _ d2 _ (by simpa using h),
    getD_map_of_lt _ _ _ d2 _ (by simpa using h)]

/-- Concrete inputs for the witnesses and counterexamples below. -/
def pW6 : Tensor ℚ := ⟨[2], [5, 7]⟩

def xC2 : Tensor ℚ := ⟨[3], [1, 2, 3]⟩

def xC2b : Tensor ℚ := ⟨[1], [5]⟩

def xC3 : Tensor ℚ := ⟨[4], [1, 2, 3, 4]⟩

def locW1 : Tensor ℚ := ⟨[3, 2], [1, 2, 3, 4, 5, 6]⟩

def mW1 : AddStateIndependentNormalScale :=
  AddStateIndependentNormalScale.init (some [2]) "exp" (1 / 10000) 0

def dW6 : Delta := Delta.init pW6 (1 / 1000000) (1 / 1000000) none none

def qW7 : Tensor ℚ := ⟨[2], [9, 9]⟩

def paramC4 : Tensor ℚ := ⟨[2, 3, 1], List.replicate 6 0⟩

def deltaC4 : Delta :=
  Delta.init paramC4 (1 / 1000000) (1 / 1000000) (some [2]) (some [3, 1])

/-- C6: For every Delta distribution with parameter p and every sample
shape s, sample(s) and rsample(s) both deterministically return p
broadcast-expanded to shape s + p.shape (so with the default empty sample
shape they are elementwise equal to p), and the accessors mode, mean and
deterministic_sample each return p unchanged. -/
theorem C6_theorem (d : Delta) (s : List Nat) (hwf : d.param.WF) :
    Delta.sample d (some s) = Delta.rsample d (some s) ∧
    (∃ t : Tensor ℚ, Delta.sample d (some s) = some t ∧
      t.shape = s ++ d.param.shape ∧
      ∀ j, j < (s ++ d.param.shape).prod →
        t.data.getD j 0 = d.param.data.getD (j % d.param.shape.prod) 0) ∧
    Delta.sample d none = some d.param ∧
    Delta.rsample d none = some d.param ∧
    d.mode = d.param ∧ d.mean = d.param ∧ d.deterministic_sample = d.param := by
  refine ⟨rfl, ?_, ?_, ?_, rfl, rfl, rfl⟩
  · obtain ⟨T, hE, hsh, _, hdata⟩ := Tensor.expand_append d.param s
    refine ⟨T, hE, hsh, ?_⟩
    intro j hj
    have := hdata j hj
    rwa [ratDefault] at this
  · show d.param.expand ([] ++ d.param.shape) = some d.param
    rw [List.nil_append]
    exact Tensor.expand_self d.param hwf
  · show d.param.expand ([] ++ d.param.shape) = some d.param
    rw [List.nil_append]
    exact Tensor.expand_self d.param hwf

/-- C6 witness: the theorem applied at a concrete distribution. -/
theorem C6_witness :
    dW6.param.WF ∧ Delta.sample dW6 none = some dW6.param :=
  ⟨by decide, (C6_theorem dW6 [3] (by decide)).2.2.1⟩

/-- C7: For every Delta distribution constructed with parameter p and every
tensor q, calling update(q) and then sample() returns q (not the original
p), and the batch and event shapes are unchanged by update. -/
theorem C7_theorem (d : Delta) (q : Tensor ℚ) (hwf : q.WF) :
    Delta.sample (d.update q) none = some q ∧
    (d.update q).batch_shape = d.batch_shape ∧
    (d.update q).event_shape = d.event_shape := by
  refine ⟨?_, rfl, rfl⟩
  show q.expand ([] ++ q.shape) = some q
  rw [List.nil_append]
  exact Tensor.expand_self q hwf

/-- C7 witness: the theorem applied at a concrete distribution and a
concrete replacement parameter. -/
theorem C7_witness :
    qW7.WF ∧ Delta.sample (dW6.update qW7) none = some qW7 :=
  ⟨by decide, (C7_theorem dW6 qW7 (by decide)).1⟩

/-- C8: For every Delta distribution constructed with parameter p and with
batch_shape and event_shape both left unspecified, the resulting
batch_shape equals p.shape[:-1] and the resulting event_shape equals
p.shape[-1:]. -/
theorem C8_theorem (p : Tensor ℚ) (atol rtol : ℚ) :
    (Delta.init p atol rtol none none).batch_shape
      = p.shape.take (p.shape.length - 1) ∧
    (Delta.init p atol rtol none none).event_shape
      = p.shape.drop (p.shape.length - 1) :=
  ⟨rfl, rfl⟩

/-- C9: Every attempt to construct the deprecated wrapper type
NormalParamWrapper fails unconditionally, for all constructor arguments,
with an error directing callers to the replacement component
NormalParamExtractor; no instance is ever produced. -/
theorem C9_theorem {Op : Type} (operator : Op) (scale_mapping : String)
    (scale_lb : ℚ) :
    NormalParamWrapper.init operator scale_mapping scale_lb
      = .error (.deprecated deprecationMsg) ∧
    deprecationMsg
      = "NormalParamWrapper has been deprecated in favor of `tensordict.nn."
        ++ "NormalParamExtractor" ++ "`. Use this class instead." ∧
    ∀ w : NormalParamWrapper, False :=
  ⟨rfl, by decide, fun w => nomatch w⟩

/-- C10: Delta's constructor treats explicitly passed empty batch_shape=()
and event_shape=() exactly like unspecified ones: derivation from
param.shape is triggered whenever both shapes are empty, so an explicitly
requested empty batch and event shape cannot be honored for a parameter
with at least one dimension; and when exactly one of the two is passed
non-empty, no derivation occurs and the other remains empty. -/
theorem C10_theorem (p : Tensor ℚ) (atol rtol : ℚ) :
    Delta.init p atol rtol (some []) (some []) = Delta.init p atol rtol none none ∧
    (∀ b : List Nat, b ≠ [] →
      (Delta.init p atol rtol (some b) (some [])).batch_shape = b ∧
      (Delta.init p atol rtol (some b) (some [])).event_shape = []) ∧
    (∀ e : List Nat, e ≠ [] →
      (Delta.init p atol rtol (some []) (some e)).batch_shape = [] ∧
      (Delta.init p atol rtol (some []) (some e)).event_shape = e) ∧
    (p.shape ≠ [] →
      (Delta.init p atol rtol (some []) (some [])).event_shape ≠ []) := by
  refine ⟨rfl, ?_, ?_, ?_⟩
  · intro b hb
    cases b with
    | nil => exact absurd rfl hb
    | cons a bs => exact ⟨rfl, rfl⟩
  · intro e he
    cases e with
    | nil => exact absurd rfl he
    | cons a es => exact ⟨rfl, rfl⟩
  · intro hp
    show p.shape.drop (p.shape.length - 1) ≠ []
    intro h
    rw [List.drop_eq_nil_iff] at h
    cases hps : p.shape with
    | nil => exact hp hps
    | cons a l =>
      rw [hps] at h
      simp at h

/-- C10 witness: the theorem applied at a concrete parameter with one
dimension, a concrete non-empty batch shape and a concrete non-empty event
shape. -/
theorem C10_witness :
    ((2 : ℚ) = 2) ∧
    (Delta.init pW6 1 1 (some [5]) (some [])).batch_shape = [5] ∧
    (Delta.init pW6 1 1 (some []) (some [7])).event_shape = [7] ∧
    (Delta.init pW6 1 1 (some []) (some [])).event_shape ≠ [] :=
  ⟨rfl, ((C10_theorem pW6 1 1).2.1 [5] (by decide)).1,
    ((C10_theorem pW6 1 1).2.2.1 [7] (by decide)).2,
    (C10_theorem pW6 1 1).2.2.2 (by decide)⟩

/-- C1 counterexample: with the default empty scale_shape, a loc of shape
(3,) makes forward fail with a shape-mismatch error (the Python slice
`loc.shape[-0:]` is the whole shape), refuting the claim that forward then
succeeds for a loc of any shape. -/
theorem C1_counterexample :
    AddStateIndependentNormalScale.forward (fun _ q => q)
      (AddStateIndependentNormalScale.init none "exp" (1 / 10000) 0)
      ⟨[3], [1, 2, 3]⟩ []
      = .error (.shapeMismatch [3] []) := by decide

/-- C1 (amended): for a module whose mapping name is in the registry,
forward succeeds and returns (loc, scale, *others) with scale of loc's
shape and elementwise at least scale_lb exactly when the Python slice
`loc.shape[-len(scale_shape):]` equals scale_shape — for non-empty
scale_shape this slice is the trailing dimensions, but for the default
empty scale_shape it is the whole shape, so forward then succeeds only for
a 0-dimensional loc; otherwise forward fails with a shape-mismatch error
reporting that slice and the scale parameter's shape. -/
theorem C1_theorem (interp : MappingKind → ℚ → ℚ) (kind : MappingKind)
    (m : AddStateIndependentNormalScale) (loc : Tensor ℚ)
    (others : List (Tensor ℚ))
    (hmap : mappings m.scale_mapping = .ok kind)
    (hstate : m.state_independent_scale.shape = m.scale_shape) :
    (pySliceNegTrail loc.shape m.scale_shape.length = m.scale_shape →
      ∃ scale : Tensor ℚ,
        m.forward interp loc others = .ok (loc, scale, others) ∧
        scale.shape = loc.shape ∧
        ∀ q ∈ scale.data, m.scale_lb ≤ q) ∧
    (pySliceNegTrail loc.shape m.scale_shape.length ≠ m.scale_shape →
      m.forward interp loc others
        = .error (.shapeMismatch
            (pySliceNegTrail loc.shape m.scale_shape.length)
            m.state_independent_scale.shape)) := by
  constructor
  · intro heq
    obtain ⟨scale0, hE, hsh, hfwd⟩ :=
      AddStateIndependentNormalScale.forward_shape_ok interp m loc others hstate heq
    rw [hfwd, hmap]
    refine ⟨_, rfl, ?_, clampMin_map_mem_le _ _ _⟩
    simpa [Tensor.clampMin, Tensor.map] using hsh
  · intro hne
    unfold AddStateIndependentNormalScale.forward
    rw [if_pos (Ne.symm hne)]

/-- C1 witness: the amended theorem applied at a module with scale_shape
(2,) and a loc of shape (3, 2). -/
theorem C1_witness :
    mappings mW1.scale_mapping = .ok .exp ∧
    ∃ scale : Tensor ℚ,
      mW1.forward (fun _ q => q) locW1 [] = .ok (locW1, scale, []) ∧
      scale.shape = [3, 2] := by
  obtain ⟨scale, h1, h2, h3⟩ :=
    (C1_theorem (fun _ q => q) .exp mW1 locW1 [] (by decide) rfl).1 (by decide)
  exact ⟨by decide, scale, h1, h2⟩

/-- C2 counterexample: an input of shape (3,) — odd last dimension — does
not make forward fail: chunk splits it unevenly and forward succeeds,
returning a loc holding the first two entries and a scale of last
dimension 1. -/
theorem C2_counterexample :
    (NormalParamExtractor.forward (fun _ q => q) ⟨.exp, 1 / 10000⟩ [xC2]).toOption.map
        (fun r => (r.1, r.2.1.shape, r.2.2))
      = some (⟨[2], [1, 2]⟩, [1], []) := by decide

/-- C2 (amended): for every input tensor whose last dimension has odd size
2k+3 (any odd size at least 3), forward does not fail: chunk(2, -1) splits
the last dimension unevenly and forward returns loc with last dimension
k+2 and scale with last dimension k+1. Only an input whose last dimension
is exactly 1 makes forward fail, and then with a tuple-unpacking error
(chunk returns a single chunk), not a shape error naming the observed
shape. -/
theorem C2_theorem (interp : MappingKind → ℚ → ℚ) (kind : MappingKind)
    (lb : ℚ) (x : Tensor ℚ) (others : List (Tensor ℚ)) (sInit : List Nat)
    (k : Nat) :
    (x.shape = sInit ++ [2 * k + 3] →
      ∃ loc scale : Tensor ℚ,
        NormalParamExtractor.forward interp ⟨kind, lb⟩ (x :: others)
          = .ok (loc, scale, others) ∧
        loc.shape = sInit ++ [k + 2] ∧
        scale.shape = sInit ++ [k + 1]) ∧
    (x.shape = sInit ++ [1] →
      NormalParamExtractor.forward interp ⟨kind, lb⟩ (x :: others)
        = .error .unpackError) := by
  constructor
  · intro hs
    obtain ⟨loc, raw, hchunk, hlsh, hssh, _, _, _, _⟩ :=
      Tensor.chunk2Last_spec x sInit (2 * k + 3) hs (by omega)
    have hc : (2 * k + 3 + 1) / 2 = k + 2 := by omega
    have hr : 2 * k + 3 - (2 * k + 3 + 1) / 2 = k + 1 := by omega
    rw [hc] at hlsh
    rw [hr] at hssh
    refine ⟨loc, Tensor.clampMin lb (Tensor.map (interp kind) raw), ?_, hlsh, ?_⟩
    · simp only [NormalParamExtractor.forward, hchunk]
    · simpa [Tensor.clampMin, Tensor.map] using hssh
  · intro hs1
    have hchunk : x.chunk2Last = .error .unpackError := by
      unfold Tensor.chunk2Last
      have hne : x.shape.isEmpty = false := by
        rw [hs1]
        cases sInit <;> rfl
      have hlast : x.shape.getLastD 0 = 1 := by
        rw [hs1]
        exact List.getLastD_concat _ _ _
      rw [hne, hlast]
      simp
    simp only [NormalParamExtractor.forward, hchunk]

/-- C2 witness: the amended theorem applied at the concrete shape-(3,)
input for the success part and at the concrete shape-(1,) input for the
unpacking-error part. -/
theorem C2_witness :
    xC2.shape = [] ++ [2 * 0 + 3] ∧
    (∃ loc scale : Tensor ℚ,
      NormalParamExtractor.forward (fun _ q => q) ⟨.exp, 1 / 10000⟩ [xC2]
        = .ok (loc, scale, []) ∧
      loc.shape = [2] ∧ scale.shape = [1]) ∧
    xC2b.shape = [] ++ [1] ∧
    NormalParamExtractor.forward (fun _ q => q) ⟨.exp, 1 / 10000⟩ [xC2b]
      = .error .unpackError :=
  ⟨rfl, (C2_theorem (fun _ q => q) .exp (1 / 10000) xC2 [] [] 0).1 rfl,
   rfl, (C2_theorem (fun _ q => q) .exp (1 / 10000) xC2b [] [] 0).2 rfl⟩

/-- C3: For every tensor x with even last dimension of size 2k and every
supported mapping, forward returns (loc, scale) where loc is the first
half of x along the last axis and scale is the mapping applied to the
second half then clamped below by scale_lb, so that loc.shape ==
scale.shape == x.shape[:-1] + (k,) and scale is elementwise ≥ scale_lb. -/
theorem C3_theorem (interp : MappingKind → ℚ → ℚ) (kind : MappingKind)
    (lb : ℚ) (x : Tensor ℚ) (others : List (Tensor ℚ)) (sInit : List Nat)
    (k : Nat) (hs : x.shape = sInit ++ [2 * k]) :
    ∃ loc scale : Tensor ℚ,
      NormalParamExtractor.forward interp ⟨kind, lb⟩ (x :: others)
        = .ok (loc, scale, others) ∧
      loc.shape = sInit ++ [k] ∧
      scale.shape = sInit ++ [k] ∧
      (∀ q ∈ scale.data, lb ≤ q) ∧
      (∀ j, j < sInit.prod * k →
        loc.data.getD j 0 = x.data.getD ((j / k) * (2 * k) + j % k) 0) ∧
      (∀ j, j < sInit.prod * k →
        scale.data.getD j 0
          = max (interp kind (x.data.getD ((j / k) * (2 * k) + k + j % k) 0)) lb) := by
  obtain ⟨loc, raw, hchunk, hlsh, hssh, hllen, hrlen, hldata, hrdata⟩ :=
    Tensor.chunk2Last_spec x sInit (2 * k) hs (by omega)
  have hc : (2 * k + 1) / 2 = k := by omega
  have hr : 2 * k - (2 * k + 1) / 2 = k := by omega
  rw [hc] at hlsh hllen hldata
  rw [hr] at hssh hrlen hrdata
  rw [hc] at hrdata
  refine ⟨loc, Tensor.clampMin lb (Tensor.map (interp kind) raw), ?_, hlsh, ?_,
    clampMin_map_mem_le _ _ _, ?_, ?_⟩
  · simp only [NormalParamExtractor.forward, hchunk]
  · simpa [Tensor.clampMin, Tensor.map] using hssh
  · intro j hj
    have := hldata j hj
    rwa [ratDefault] at this
  · intro j hj
    rw [clampMin_map_getD _ _ _ _ _ (0 : ℚ) (by rw [hrlen]; exact hj)]
    have := hrdata j hj
    rw [ratDefault] at this
    rw [this]

/-- C3 witness: the theorem applied at a concrete shape-(4,) input. -/
theorem C3_witness :
    xC3.shape = [] ++ [2 * 2] ∧
    ∃ loc scale : Tensor ℚ,
      NormalParamExtractor.forward (fun _ q => q) ⟨.exp, 1 / 10000⟩ [xC3]
        = .ok (loc, scale, []) ∧
      ∀ q ∈ scale.data, (1 / 10000 : ℚ) ≤ q := by
  refine ⟨rfl, ?_⟩
  obtain ⟨loc, scale, h1, _, _, h4, _, _⟩ :=
    C3_theorem (fun _ q => q) .exp (1 / 10000) xC3 [] [] 2 rfl
  exact ⟨loc, scale, h1, h4⟩

/-- C4: evaluation of the code at the failing input. For the Delta
distribution with parameter of shape (2, 3, 1), batch_shape (2,) and
event_shape (3, 1), log_prob of the parameter itself returns a tensor of
shape (3,), not of the batch shape (2,): the reduction loop
`for i in range(-1, -len(event_shape) - 1, -1): is_equal = is_equal.all(i)`
applies `all(-2)` to the already-reduced (2, 3) tensor and so reduces the
batch dimension while keeping an event dimension. -/
theorem C4_theorem :
    deltaC4.batch_shape = [2] ∧
    deltaC4.event_shape = [3, 1] ∧
    Delta.log_prob deltaC4 paramC4
      = some ⟨[3], [FVal.inf, FVal.inf, FVal.inf]⟩ ∧
    ([3] : List Nat) ≠ [2] := by
  refine ⟨by decide, by decide, ?_, by decide⟩
  have h1 : deltaC4.param.expand paramC4.shape = some paramC4 :=
    Tensor.expand_self paramC4 (by decide)
  have h2 : Tensor.zipApply
      (fun v p => decide (|v - p| < deltaC4.atol + deltaC4.rtol * |p|))
      paramC4 paramC4 = ⟨[2, 3, 1], List.replicate 6 true⟩ := by
    unfold Tensor.zipApply
    congr 1
    rw [List.eq_replicate_iff]
    constructor
    · decide
    · intro b hb
      simp only [List.mem_map, List.mem_range] at hb
      obtain ⟨j, hj, rfl⟩ := hb
      have h0 : paramC4.data.getD j default = (0 : ℚ) := getD_replicate 6 0 j
      rw [h0]
      simp only [decide_eq_true_eq]
      show |(0 : ℚ) - 0| < 1 / 1000000 + 1 / 1000000 * |(0 : ℚ)|
      norm_num
  unfold Delta.log_prob Delta.is_equal
  rw [h1]
  simp only [Option.bind_eq_bind, Option.some_bind]
  rw [h2]
  decide

/-- C5 counterexample: constructing AddStateIndependentNormalScale with
the unknown mapping name "bogus" does not fail — it returns a fully-built
module storing the raw name — and the UnknownMapping error only surfaces
at the first forward call, refuting the claim that the failure happens at
construction. -/
theorem C5_counterexample :
    (AddStateIndependentNormalScale.init none "bogus" (1 / 10000) 0).scale_mapping
      = "bogus" ∧
    (AddStateIndependentNormalScale.init none "bogus" (1 / 10000) 0).scale_shape
      = [] ∧
    (AddStateIndependentNormalScale.init none "bogus" (1 / 10000) 0).state_independent_scale.shape
      = [] ∧
    AddStateIndependentNormalScale.forward (fun _ q => q)
      (AddStateIndependentNormalScale.init none "bogus" (1 / 10000) 0)
      ⟨[], [7]⟩ []
      = .error (.unknownMapping "bogus") := by decide

/-- C5 (amended): for every mapping name not in the registry,
NormalParamExtractor fails with an UnknownMapping error at construction,
while AddStateIndependentNormalScale constructs successfully (storing the
raw name, with no fallback) and fails with the UnknownMapping error at its
first forward call whose shape check passes. -/
theorem C5_theorem (name : String) (lb iv : ℚ) (ss : Option (List Nat))
    (interp : MappingKind → ℚ → ℚ) (others : List (Tensor ℚ))
    (loc : Tensor ℚ)
    (hname : mappings name = .error (.unknownMapping name))
    (hloc : pySliceNegTrail loc.shape (ss.getD []).length = ss.getD []) :
    NormalParamExtractor.init name lb = .error (.unknownMapping name) ∧
    (AddStateIndependentNormalScale.init ss name lb iv).scale_mapping = name ∧
    AddStateIndependentNormalScale.forward interp
      (AddStateIndependentNormalScale.init ss name lb iv) loc others
      = .error (.unknownMapping name) := by
  refine ⟨?_, rfl, ?_⟩
  · unfold NormalParamExtractor.init
    rw [hname]
    rfl
  · obtain ⟨scale0, _, _, hfwd⟩ :=
      AddStateIndependentNormalScale.forward_shape_ok interp
        (AddStateIndependentNormalScale.init ss name lb iv) loc others rfl hloc
    rw [hfwd]
    show (match mappings name with
      | .error e => Except.error e
      | .ok kind =>
        Except.ok (loc,
          Tensor.clampMin lb (Tensor.map (interp kind) scale0), others)) = _
    rw [hname]

/-- C5 witness: the amended theorem applied at the unknown name "bogus"
with a scalar loc. -/
theorem C5_witness :
    mappings "bogus" = .error (.unknownMapping "bogus") ∧
    NormalParamExtractor.init "bogus" (1 / 10000)
      = .error (.unknownMapping "bogus") ∧
    AddStateIndependentNormalScale.forward (fun _ q => q)
      (AddStateIndependentNormalScale.init none "bogus" (1 / 10000) 0)
      ⟨[], [7]⟩ []
      = .error (.unknownMapping "bogus") := by
  have h := C5_theorem "bogus" (1 / 10000) 0 none (fun _ q => q) [] ⟨[], [7]⟩
    (by decide) (by decide)
  exact ⟨by decide, h.1, h.2.2⟩

end Tdc
